import Mathlib

/-!
Verification development for the Streaming Session Engine of the Saraswati AI
research-assistant chat surface (frontend/app/dashboard/explore/[projectId]/page.tsx).

The TypeScript core is shallowly embedded here:
* the Frame Decoder (`processStreamWith`) over character chunks,
* the Event Taxonomy and Conversation Reducer (`handleSSEEvent`),
* the Session Controller (`sendMessage`) with its persistence synchronizer
  (`persistMessage` call sites, `trackingHandler`), and
* the History Rehydrator (`loadHistory`) with the greeting fallback.

Stateful React code (`setMessages`, `setStreaming`) is embedded as explicit
state passing; `fetch`/stream outcomes are embedded as explicit inputs
(a transport either yields a list of decoded events or throws, possibly after
a prefix of events was already processed).  Strings are Lean `String`s;
`TextDecoder` byte-to-character decoding is external (a JS builtin), so the
decoder is modelled on the already-decoded character stream, chunked
arbitrarily.  `JSON.parse` is likewise external and is a parameter of the
decoder (a function returning `Option`, `none` meaning a parse failure that
the source swallows with `try/catch`).
-/

namespace Saraswati

/-! ## Frame Decoder — `processStreamWith` (page.tsx lines 422-442)

The source keeps a string `buffer`, appends each decoded chunk, splits on
`'\n'`, pops the last fragment back into the buffer and processes each
complete line: lines not starting with `"data: "` are skipped, the rest have
the 6-character prefix removed and are JSON-parsed inside `try/catch`.
A trailing unterminated fragment is discarded at end of stream.

`splitLines cs` returns the complete (newline-terminated) lines of `cs`
together with the trailing fragment after the last newline; this is exactly
JS `buffer.split('\n')` followed by `lines.pop()`. -/

def splitLines : List Char → List (List Char) × List Char
  | [] => ([], [])
  | c :: cs =>
    let (ls, r) := splitLines cs
    if c = '\n' then ([] :: ls, r)
    else
      match ls with
      | [] => ([], c :: r)
      | l :: ls₂ => ((c :: l) :: ls₂, r)

/-- One decoder step: append the chunk to the buffer, emit the complete lines,
keep the trailing fragment as the new buffer (page.tsx lines 434-436). -/
def feedChunk (buffer chunk : List Char) : List (List Char) × List Char :=
  splitLines (buffer ++ chunk)

/-- Run the decoder loop over a list of chunks starting from a buffer,
returning all emitted complete lines; the final buffer is discarded when the
transport reports `done` (page.tsx lines 431-441). -/
def runChunks (buffer : List Char) : List (List Char) → List (List Char)
  | [] => []
  | ch :: rest =>
    let (ls, r) := feedChunk buffer ch
    ls ++ runChunks r rest

/-- The `"data: "` framing prefix (6 characters, page.tsx lines 438-439). -/
def dataPrefix : List Char := ['d', 'a', 't', 'a', ':', ' ']

/-- Full decoder: lines emitted across all chunks, filtered by the framing
prefix and fed to the (external) JSON parser; `none` results (malformed
frames) are dropped, mirroring the source's `try { ... } catch { }`. -/
def decodeEvents {α : Type} (parse : List Char → Option α) (chunks : List (List Char)) : List α :=
  (runChunks [] chunks).filterMap fun line =>
    if dataPrefix.isPrefixOf line then parse (line.drop 6) else none

/-! ### Decoder lemmas: chunk boundaries are invisible -/

/-- Merging a leading fragment into a split result, used to state how
`splitLines` acts on a concatenation. -/
def mergeSplit (ra : List Char) : List (List Char) × List Char → List (List Char) × List Char
  | ([], rb) => ([], ra ++ rb)
  | (l :: ls, rb) => ((ra ++ l) :: ls, rb)

/-! ## Data model — `Message`, `Paper` (page.tsx lines 20-28, lib/api.ts lines 9-18)

`MessageType` is a union of string literals in the source; it is embedded as a
plain `String` (the history rehydrator casts a database string straight into
it without validation, so `String` is the faithful carrier).  Optional fields
become `Option`. -/

structure Paper where
  arxiv_id : String
  title : String
  authors : List String
  abstract_snippet : String
  published : Option String
  pdf_url : Option String
  categories : List String
  credibility : Option String := none
deriving DecidableEq, Repr

structure Message where
  id : String
  type : String
  content : Option String := none
  chips : Option (List String) := none
  paper : Option Paper := none
deriving DecidableEq, Repr

/-- A decoded stream event: a JSON object with an optional `type` discriminator
and the payload fields the handler reads (`content`, `chips`, `paper`).
A field the JSON object lacks is `none` (JS `undefined`); a `type` that is
present but not a string behaves, for every comparison the handler performs,
like a string different from all five known tags, so `Option String` carries
the cases the handler can distinguish. -/
structure SSEEvent where
  type : Option String := none
  content : Option String := none
  chips : Option (List String) := none
  paper : Option Paper := none
deriving DecidableEq, Repr

/-! ## Identity generation — `uid` (page.tsx lines 16-18)

`let _uid = 0; const uid = () => `${Date.now()}_${++_uid}``.  The clock value
(`Date.now()`) is an input `now`; the module-global counter is threaded as
explicit state.  Pre-increment: the value rendered is `ctr + 1`. -/

def uid (now ctr : Nat) : String × Nat :=
  (Nat.repr now ++ "_" ++ Nat.repr (ctr + 1), ctr + 1)

/-! ## Conversation Reducer — `handleSSEEvent` (page.tsx lines 444-458) -/

def handleSSEEvent (now : Nat) (ev : SSEEvent) (assistantMsgId : String)
    (msgs : List Message) (ctr : Nat) : List Message × Nat :=
  if ev.type = some "text" then
    (msgs.map fun msg =>
      if msg.id = assistantMsgId then
        { msg with content := some (msg.content.getD "" ++ ev.content.getD "") }
      else msg,
     ctr)
  else if ev.type = some "status" then
    let (u, ctr₂) := uid now ctr
    (msgs ++ [{ id := "status_" ++ u, type := "status", content := ev.content }], ctr₂)
  else if ev.type = some "paper_artifact" then
    let (u, ctr₂) := uid now ctr
    (msgs ++ [{ id := "paper_" ++ u, type := "paper_artifact", paper := ev.paper }], ctr₂)
  else if ev.type = some "suggestion_chips" then
    let (u, ctr₂) := uid now ctr
    (msgs ++ [{ id := "chips_" ++ u, type := "chips", chips := ev.chips }], ctr₂)
  else if ev.type = some "error" then
    let (u, ctr₂) := uid now ctr
    (msgs ++ [{ id := "err_" ++ u, type := "error", content := ev.content }], ctr₂)
  else (msgs, ctr)

/-- Fold the reducer over a decoded event list (the
`processStreamWith` loop handing each event to the handler in decode order). -/
def runEvents (now : Nat) (aid : String) : List SSEEvent → List Message → Nat → List Message × Nat
  | [], msgs, ctr => (msgs, ctr)
  | ev :: evs, msgs, ctr =>
    let (msgs₂, ctr₂) := handleSSEEvent now ev aid msgs ctr
    runEvents now aid evs msgs₂ ctr₂

/-! ## Persistence rows — `persistMessage` payloads (page.tsx lines 317-333, 382)

A persisted row body is `{ msg_type, content?, metadata? }`; `metadata` holds
`{ paper }` for artifacts and `{ chips }` for suggestion sets. -/

structure Meta where
  chips : Option (List String) := none
  paper : Option Paper := none
deriving DecidableEq, Repr

structure Row where
  msg_type : String
  content : Option String := none
  metadata : Option Meta := none
deriving DecidableEq, Repr

/-- The `trackingHandler` side channel (page.tsx lines 480-485): papers and
suggestion chips seen mid-stream are queued for persistence after stream end;
every other event type leaves no row. -/
def trackRow (ev : SSEEvent) : Option Row :=
  if ev.type = some "paper_artifact" then
    some { msg_type := "paper_artifact", metadata := some { paper := ev.paper } }
  else if ev.type = some "suggestion_chips" then
    some { msg_type := "chips", metadata := some { chips := ev.chips } }
  else none

/-! ## Session Controller — `sendMessage` (page.tsx lines 460-517) -/

/-- Outcome of opening and reading the stream: `ok evs` — the transport
completed after the decoder produced `evs`; `fail prior` — the fetch or a
read threw after the decoder had already produced `prior` (an outright
connection rejection is `fail []`). -/
inductive Transport where
  | ok (evs : List SSEEvent)
  | fail (prior : List SSEEvent)
deriving DecidableEq, Repr

/-- JS `String.prototype.trim`: strip leading and trailing whitespace.  (Lean's
own `String.trim` is not kernel-reducible, so the builtin is embedded
directly.) -/
def jsTrim (s : String) : String :=
  ⟨((s.data.dropWhile Char.isWhitespace).reverse.dropWhile Char.isWhitespace).reverse⟩

structure SessionState where
  messages : List Message := []
  streaming : Bool := false
  counter : Nat := 0
  rows : List Row := []
deriving DecidableEq, Repr

def fixedErrorText : String := "Failed to reach the backend."

/-- `sendMessage(text)` (page.tsx lines 460-517), with the clock reading `now`
and the transport outcome `tr` as explicit inputs.  Steps, in source order:
guard (`!text.trim() || streaming`); set `streaming`; append the `user` and
fresh empty `assistant` entries; persist the user row immediately; drive the
decoded events through `handleSSEEvent` while `trackingHandler` queues
paper/chips rows; on a thrown transport error convert the open assistant
entry in place to an `error` entry with `fixedErrorText`; finally clear
`streaming`, persist the assistant row when its content is truthy (non-empty),
then persist the queued rows in order. -/
def sendMessage (st : SessionState) (text : String) (now : Nat) (tr : Transport) : SessionState :=
  if jsTrim text = "" ∨ st.streaming then st
  else
    let aid := "ai_" ++ Nat.repr now
    let userMsg : Message := { id := "user_" ++ Nat.repr now, type := "user", content := some text }
    let aiMsg : Message := { id := aid, type := "assistant", content := some "" }
    let msgs₀ := st.messages ++ [userMsg, aiMsg]
    let rows₀ := st.rows ++ [{ msg_type := "user", content := some text }]
    let evs := match tr with | .ok evs => evs | .fail prior => prior
    let (msgs₁, ctr₁) := runEvents now aid evs msgs₀ st.counter
    let newRows := evs.filterMap trackRow
    let msgs₂ := match tr with
      | .ok _ => msgs₁
      | .fail _ => msgs₁.map fun msg =>
          if msg.id = aid then { msg with type := "error", content := some fixedErrorText }
          else msg
    let rows₁ := match (msgs₂.find? fun m => m.id = aid).bind Message.content with
      | some c => if c = "" then rows₀ else rows₀ ++ [{ msg_type := "assistant", content := some c }]
      | none => rows₀
    { messages := msgs₂, streaming := false, counter := ctr₁, rows := rows₁ ++ newRows }

/-! ## History Rehydrator — `loadHistory` (page.tsx lines 370-416) -/

/-- Map one persisted row (with its database id) back to a conversation entry
(page.tsx lines 386-392). -/
def restoreRow (dbId : Nat) (r : Row) : Message :=
  { id := "db_" ++ Nat.repr dbId
    type := r.msg_type
    content := r.content
    chips := if r.msg_type = "chips" then r.metadata.bind Meta.chips else none
    paper := if r.msg_type = "paper_artifact" then r.metadata.bind Meta.paper else none }

def defaultGreeting : String :=
  "Hi! I'm **Saraswati**, your research guide. What would you like to explore today?"

def defaultChips : List String :=
  ["I'm a beginner", "Show top papers", "I know the basics", "Go deep"]

/-- Outcome of the history fetch: `failed` covers a thrown network error and a
non-ok response (the source throws on `!resp.ok`); `ok rows` is the parsed row
list, each row carrying its database id. -/
inductive HistoryFetch where
  | failed
  | ok (rows : List (Nat × Row))
deriving DecidableEq, Repr

/-- Outcome of the greeting stream: `failed` — the fetch or a read threw;
`ok evs` — the stream completed after the decoder produced `evs`. -/
inductive GreetingFetch where
  | failed
  | ok (evs : List SSEEvent)
deriving DecidableEq, Repr

structure LoadResult where
  messages : List Message
  streaming : Bool
  historyLoaded : Bool
  counter : Nat
deriving DecidableEq, Repr

/-- The greeting branch of `loadHistory` (page.tsx lines 399-412): open a
fresh assistant entry, stream the greeting; if the greeting request throws,
replace the conversation with the client-side default greeting and default
chips; always clear `streaming`. -/
def loadGreeting (greet : GreetingFetch) (now ctr : Nat) : LoadResult :=
  let assistantId := "msg_" ++ Nat.repr now
  match greet with
  | .failed =>
    { messages := [{ id := assistantId, type := "assistant", content := some defaultGreeting },
                   { id := "chips_0", type := "chips", chips := some defaultChips }]
      streaming := false, historyLoaded := true, counter := ctr }
  | .ok evs =>
    let (msgs, ctr₂) := runEvents now assistantId evs
      [{ id := assistantId, type := "assistant", content := some "" }] ctr
    { messages := msgs, streaming := false, historyLoaded := true, counter := ctr₂ }

/-- `loadHistory` (page.tsx lines 370-416): restore the conversation from the
persisted rows when at least one exists; otherwise fall back to the live
greeting stream. -/
def loadHistory (hist : HistoryFetch) (greet : GreetingFetch) (now ctr : Nat) : LoadResult :=
  match hist with
  | .ok rows =>
    if rows.length > 0 then
      { messages := rows.map fun p => restoreRow p.1 p.2
        streaming := false, historyLoaded := true, counter := ctr }
    else loadGreeting greet now ctr
  | .failed => loadGreeting greet now ctr

/-! ### Injectivity of `Nat.repr`

`Nat.repr` renders via `Nat.toDigitsCore` (fuel-driven).  We give it an
evaluator (`digitsVal`, most-significant digit first) and show the round trip,
from which injectivity follows. -/

def digitVal (c : Char) : Nat := c.toNat - '0'.toNat

def digitsVal (cs : List Char) : Nat := cs.foldl (fun a c => a * 10 + digitVal c) 0

/-! ## Reducer characterization

`runEvents` factors into (a) appending the accumulated text of all `text`
events to the open assistant entry and (b) appending one terminal entry per
`status` / `paper_artifact` / `suggestion_chips` / `error` event, in event
order, with `uid` ids minted from the running counter. -/

/-- Concatenation of the `content` payloads of the `text` events, in order
(absent `content` contributes the empty string, as in the source's `?? ''`). -/
def accumText : List SSEEvent → String
  | [] => ""
  | ev :: evs => (if ev.type = some "text" then ev.content.getD "" else "") ++ accumText evs

/-- Append `t` to the content of the entry with id `aid` (the `text` branch of
the handler, applied once with the whole accumulated text). -/
def textApply (t : String) (aid : String) (m : Message) : Message :=
  if m.id = aid then { m with content := some (m.content.getD "" ++ t) } else m

/-- The terminal entries a run of events appends, with the counter threaded. -/
def appendedOf (now : Nat) : List SSEEvent → Nat → List Message × Nat
  | [], ctr => ([], ctr)
  | ev :: evs, ctr =>
    if ev.type = some "text" then appendedOf now evs ctr
    else if ev.type = some "status" then
      let (u, ctr₂) := uid now ctr
      let (rest, ctr₃) := appendedOf now evs ctr₂
      ({ id := "status_" ++ u, type := "status", content := ev.content } :: rest, ctr₃)
    else if ev.type = some "paper_artifact" then
      let (u, ctr₂) := uid now ctr
      let (rest, ctr₃) := appendedOf now evs ctr₂
      ({ id := "paper_" ++ u, type := "paper_artifact", paper := ev.paper } :: rest, ctr₃)
    else if ev.type = some "suggestion_chips" then
      let (u, ctr₂) := uid now ctr
      let (rest, ctr₃) := appendedOf now evs ctr₂
      ({ id := "chips_" ++ u, type := "chips", chips := ev.chips } :: rest, ctr₃)
    else if ev.type = some "error" then
      let (u, ctr₂) := uid now ctr
      let (rest, ctr₃) := appendedOf now evs ctr₂
      ({ id := "err_" ++ u, type := "error", content := ev.content } :: rest, ctr₃)
    else appendedOf now evs ctr

/-- `aid` avoids the reducer's minted-id prefixes. -/
def AvoidsMintedPrefixes (aid : String) : Prop :=
  ∀ s : String, aid ≠ "status_" ++ s ∧ aid ≠ "paper_" ++ s
    ∧ aid ≠ "chips_" ++ s ∧ aid ≠ "err_" ++ s

/-! ## Concrete fixtures used by witnesses and counterexamples -/

/-- A session freshly rehydrated from one persisted user row, as `loadHistory`
would produce it (entry id `db_1`, `streaming` off). -/
def sessionW : SessionState :=
  { messages := [{ id := "db_1", type := "user", content := some "earlier" }]
    streaming := false
    counter := 0
    rows := [{ msg_type := "user", content := some "earlier" }] }

def paperW : Paper :=
  { arxiv_id := "2401.00001", title := "Attention Is All You Need", authors := ["A. Vaswani"]
    abstract_snippet := "We propose a new architecture.", published := some "2017-06-12"
    pdf_url := some "https://arxiv.org/pdf/2401.00001", categories := ["cs.CL"]
    credibility := some "HIGH" }

def statusEventW : SSEEvent := { type := some "status", content := some "Searching papers…" }

def paperEventW : SSEEvent := { type := some "paper_artifact", paper := some paperW }

def textEventW : SSEEvent := { type := some "text", content := some "Sure!" }

/-! ### Text-event folding helpers -/

def concatAll : List String → String
  | [] => ""
  | s :: ss => s ++ concatAll ss

/-! ### Rehydration observables -/

/-- Observable payload of an entry: kind, text, chips, artifact.  Ids are
regenerated on rehydration (`db_<rowid>`), so they are not part of the
rehydration/streaming equivalence. -/
def obs (m : Message) : String × Option String × Option (List String) × Option Paper :=
  (m.type, m.content, m.chips, m.paper)

def restoreObs (r : Row) : String × Option String × Option (List String) × Option Paper :=
  obs (restoreRow 0 r)

theorem mergeSplit_nil (p : List (List Char) × List Char) : mergeSplit [] p = p := by
  rcases p with ⟨ls, r⟩
  cases ls <;> simp [mergeSplit]

theorem splitLines_append (a b : List Char) :
    splitLines (a ++ b) =
      ((splitLines a).1 ++ (mergeSplit (splitLines a).2 (splitLines b)).1,
       (mergeSplit (splitLines a).2 (splitLines b)).2) := by
  induction a with
  | nil =>
    simp [splitLines, mergeSplit_nil]
  | cons c a ih =>
    by_cases hc : c = '\n'
    · simp [splitLines, hc, ih]
    · rcases ha : splitLines a with ⟨la, ra⟩
      rcases hb : splitLines b with ⟨lb, rb⟩
      cases la with
      | nil =>
        cases lb with
        | nil => simp [splitLines, hc, ih, ha, hb, mergeSplit]
        | cons l ls => simp [splitLines, hc, ih, ha, hb, mergeSplit]
      | cons l ls => simp [splitLines, hc, ih, ha, hb, mergeSplit]

/-- The trailing fragment returned by `splitLines` never contains a newline. -/
theorem splitLines_snd_no_newline (cs : List Char) : '\n' ∉ (splitLines cs).2 := by
  induction cs with
  | nil => simp [splitLines]
  | cons c cs ih =>
    by_cases hc : c = '\n'
    · simpa [splitLines, hc] using ih
    · rcases h : splitLines cs with ⟨ls, r⟩
      cases ls with
      | nil =>
        rw [h] at ih
        simp only [splitLines, hc, if_false, h, List.mem_cons, not_or]
        exact ⟨fun hh => hc hh.symm, ih⟩
      | cons l ls₂ =>
        rw [h] at ih
        simp [splitLines, hc, h, ih]

/-- A fragment with no newline splits to no complete line and itself. -/
theorem splitLines_of_no_newline (r : List Char) (h : '\n' ∉ r) :
    splitLines r = ([], r) := by
  induction r with
  | nil => simp [splitLines]
  | cons c cs ih =>
    have hc : c ≠ '\n' := fun hh => h (by simp [hh])
    have hcs : '\n' ∉ cs := fun hh => h (by simp [hh])
    simp [splitLines, ih hcs, hc]

/-- Incremental decoding over chunks emits exactly the complete lines of the
concatenated stream, provided the starting buffer holds no newline. -/
theorem runChunks_eq (chunks : List (List Char)) :
    ∀ buffer : List Char, '\n' ∉ buffer →
    runChunks buffer chunks = (splitLines (buffer ++ chunks.flatten)).1 := by
  induction chunks with
  | nil =>
    intro buffer hb
    simp [runChunks, splitLines_of_no_newline buffer hb]
  | cons ch rest ih =>
    intro buffer hb
    have hb' : '\n' ∉ (splitLines (buffer ++ ch)).2 := splitLines_snd_no_newline _
    calc runChunks buffer (ch :: rest)
        = (splitLines (buffer ++ ch)).1 ++ runChunks (splitLines (buffer ++ ch)).2 rest := by
          simp [runChunks, feedChunk]
      _ = (splitLines (buffer ++ ch)).1
            ++ (splitLines ((splitLines (buffer ++ ch)).2 ++ rest.flatten)).1 := by
          rw [ih _ hb']
      _ = (splitLines ((buffer ++ ch) ++ rest.flatten)).1 := by
          rw [splitLines_append (buffer ++ ch) rest.flatten,
            splitLines_append (splitLines (buffer ++ ch)).2 rest.flatten,
            splitLines_of_no_newline _ hb']
          simp
      _ = (splitLines (buffer ++ (ch :: rest).flatten)).1 := by
          simp

/-- C2 — Chunk-splitting invariance of the frame decoder: any two partitions
of the same character stream into chunks decode to the identical event
sequence, for every (external) JSON parser.  Chunk boundaries never drop,
duplicate, reorder, or alter an event. -/
theorem decoder_chunk_invariance {α : Type} (parse : List Char → Option α)
    (chunks₁ chunks₂ : List (List Char)) (h : chunks₁.flatten = chunks₂.flatten) :
    decodeEvents parse chunks₁ = decodeEvents parse chunks₂ := by
  unfold decodeEvents
  rw [runChunks_eq chunks₁ [] (by simp), runChunks_eq chunks₂ [] (by simp), h]

/-- C2 witness: the stream `"data: x\nda"` taken as a single chunk, or cut in
the middle of the framing prefix and again before the trailing fragment,
decodes to the same event sequence. -/
theorem decoder_chunk_invariance_witness :
    ([['d', 'a', 't', 'a', ':', ' ', 'x', '\n', 'd', 'a']] : List (List Char)).flatten
        = ([['d', 'a'], ['t', 'a', ':', ' ', 'x', '\n'], ['d', 'a']] : List (List Char)).flatten
      ∧ decodeEvents (fun l => some l) [['d', 'a', 't', 'a', ':', ' ', 'x', '\n', 'd', 'a']]
        = decodeEvents (fun l => some l) [['d', 'a'], ['t', 'a', ':', ' ', 'x', '\n'], ['d', 'a']] :=
  ⟨by decide, decoder_chunk_invariance (fun l => some l) _ _ (by decide)⟩

/-! ## String identity helpers

Every id the engine mints starts with a kind prefix whose first character is
unique among the kinds (`user_`, `ai_`, `msg_`, `db_`, `status_`, `paper_`,
`chips_`, `err_`), and the `uid` suffix embeds the strictly-increasing
counter.  These lemmas let us separate ids by prefix and by counter. -/

theorem append_ne_of_head_ne {c d : Char} (p q : String)
    (hp : p.data.head? = some c) (hq : q.data.head? = some d) (hcd : c ≠ d)
    (u v : String) : p ++ u ≠ q ++ v := by
  intro h
  have hdata : (p ++ u).data = (q ++ v).data := congrArg String.data h
  rw [String.data_append, String.data_append] at hdata
  have hheads : (p.data ++ u.data).head? = (q.data ++ v.data).head? := by rw [hdata]
  rw [List.head?_append, List.head?_append, hp, hq] at hheads
  simp [Option.or] at hheads
  exact hcd hheads

theorem digitsVal_go (cs : List Char) :
    ∀ a b : Nat, List.foldl (fun a c => a * 10 + digitVal c) (a + b) cs
      = a * 10 ^ cs.length + List.foldl (fun a c => a * 10 + digitVal c) b cs := by
  induction cs with
  | nil => intro a b; simp
  | cons c cs ih =>
    intro a b
    have h1 : (a + b) * 10 + digitVal c = a * 10 + (b * 10 + digitVal c) := by ring
    simp only [List.foldl_cons, h1]
    rw [ih (a * 10) (b * 10 + digitVal c), List.length_cons, Nat.pow_succ]
    ring

theorem digitsVal_append_singleton (cs : List Char) (c : Char) :
    digitsVal (cs ++ [c]) = digitsVal cs * 10 + digitVal c := by
  simp [digitsVal, List.foldl_append]

theorem toDigitsCore_accumulator (fuel : Nat) :
    ∀ (n : Nat) (ds : List Char),
      Nat.toDigitsCore 10 fuel n ds = Nat.toDigitsCore 10 fuel n [] ++ ds := by
  induction fuel with
  | zero => intro n ds; simp [Nat.toDigitsCore]
  | succ fuel ih =>
    intro n ds
    by_cases h : n / 10 = 0
    · simp [Nat.toDigitsCore, h]
    · simp only [Nat.toDigitsCore, h, if_false]
      rw [ih (n / 10) (Nat.digitChar (n % 10) :: ds), ih (n / 10) [Nat.digitChar (n % 10)]]
      simp

theorem digitVal_digitChar (k : Nat) (h : k < 10) : digitVal (Nat.digitChar k) = k := by
  interval_cases k <;> decide

theorem digitsVal_toDigitsCore (fuel : Nat) :
    ∀ n : Nat, n < fuel → digitsVal (Nat.toDigitsCore 10 fuel n []) = n := by
  induction fuel with
  | zero => intro n hn; omega
  | succ fuel ih =>
    intro n hn
    by_cases h : n / 10 = 0
    · have hlt : n < 10 := by omega
      have hmod : n % 10 = n := Nat.mod_eq_of_lt hlt
      simp [Nat.toDigitsCore, h, digitsVal, hmod, digitVal_digitChar n hlt]
    · have hpos : 0 < n := by
        rcases Nat.eq_zero_or_pos n with h0 | h0
        · subst h0; simp at h
        · exact h0
      have hdiv : n / 10 < fuel := by
        have := Nat.div_lt_self hpos (by omega : 1 < 10)
        omega
      simp only [Nat.toDigitsCore, h, if_false]
      rw [toDigitsCore_accumulator fuel (n / 10) [Nat.digitChar (n % 10)]]
      rw [digitsVal_append_singleton, ih (n / 10) hdiv,
        digitVal_digitChar (n % 10) (Nat.mod_lt n (by omega))]
      omega

theorem digitsVal_repr (n : Nat) : digitsVal (Nat.repr n).data = n := by
  have h : (Nat.repr n).data = Nat.toDigitsCore 10 (n + 1) n [] := rfl
  rw [h]
  exact digitsVal_toDigitsCore (n + 1) n (Nat.lt_succ_self n)

theorem repr_injective {m n : Nat} (h : Nat.repr m = Nat.repr n) : m = n := by
  have := congrArg (fun s => digitsVal s.data) h
  simpa [digitsVal_repr] using this

/-- The `uid` strings minted at one clock instant with distinct counter states
are distinct: the clock part agrees, so the counters must agree. -/
theorem uid_injective (now : Nat) {i j : Nat} (hij : i ≠ j) :
    (uid now i).1 ≠ (uid now j).1 := by
  intro h
  simp only [uid] at h
  have hdata := congrArg String.data h
  simp only [String.data_append, List.append_assoc] at hdata
  have h2 := List.append_cancel_left hdata
  have h3 : (Nat.repr (i + 1)).data = (Nat.repr (j + 1)).data := by simpa using h2
  exact hij (Nat.succ_injective (repr_injective (String.ext h3)))

theorem avoids_of_head {c : Char} (p : String) (hp : p.data.head? = some c)
    (hs : c ≠ 's') (hpa : c ≠ 'p') (hc : c ≠ 'c') (he : c ≠ 'e') (u : String) :
    AvoidsMintedPrefixes (p ++ u) := by
  intro s
  refine ⟨append_ne_of_head_ne p "status_" hp rfl hs u s,
    append_ne_of_head_ne p "paper_" hp rfl hpa u s,
    append_ne_of_head_ne p "chips_" hp rfl hc u s,
    append_ne_of_head_ne p "err_" hp rfl he u s⟩

theorem textApply_id (t aid : String) (m : Message) : (textApply t aid m).id = m.id := by
  unfold textApply
  by_cases h : m.id = aid <;> simp [h]

theorem textApply_empty (aid : String) (m : Message)
    (h : m.id = aid → m.content ≠ none) : textApply "" aid m = m := by
  rcases m with ⟨mid, mty, mco, mch, mpa⟩
  unfold textApply
  by_cases hid : mid = aid
  · rcases hm : mco with _ | s
    · exact absurd (by simpa using hm) (h (by simpa using hid))
    · subst hm; simp [hid]
  · simp [hid]

theorem textApply_textApply (t r aid : String) (m : Message)
    (h : m.id = aid → m.content ≠ none) :
    textApply r aid (textApply t aid m) = textApply (t ++ r) aid m := by
  rcases m with ⟨mid, mty, mco, mch, mpa⟩
  unfold textApply
  by_cases hid : mid = aid
  · rcases hm : mco with _ | s
    · exact absurd (by simpa using hm) (h (by simpa using hid))
    · subst hm; simp [hid, String.append_assoc]
  · simp [hid]

theorem appended_id_has_minted_prefix (now : Nat) (evs : List SSEEvent) :
    ∀ ctr, ∀ m ∈ (appendedOf now evs ctr).1,
      ∃ s : String, m.id = "status_" ++ s ∨ m.id = "paper_" ++ s
        ∨ m.id = "chips_" ++ s ∨ m.id = "err_" ++ s := by
  induction evs with
  | nil => intro ctr m hm; simp [appendedOf] at hm
  | cons ev evs ih =>
    intro ctr m hm
    by_cases ht : ev.type = some "text"
    · exact ih ctr m (by simpa [appendedOf, ht] using hm)
    · by_cases hs : ev.type = some "status"
      · simp only [appendedOf, ht, hs, if_false, if_true, uid] at hm
        rcases List.mem_cons.mp hm with hm | hm
        · exact ⟨(uid now ctr).1, by simp [hm, uid]⟩
        · exact ih (ctr + 1) m hm
      · by_cases hp : ev.type = some "paper_artifact"
        · simp only [appendedOf, ht, hs, hp, if_false, if_true, uid] at hm
          rcases List.mem_cons.mp hm with hm | hm
          · exact ⟨(uid now ctr).1, by simp [hm, uid]⟩
          · exact ih (ctr + 1) m hm
        · by_cases hc : ev.type = some "suggestion_chips"
          · simp only [appendedOf, ht, hs, hp, hc, if_false, if_true, uid] at hm
            rcases List.mem_cons.mp hm with hm | hm
            · exact ⟨(uid now ctr).1, by simp [hm, uid]⟩
            · exact ih (ctr + 1) m hm
          · by_cases he : ev.type = some "error"
            · simp only [appendedOf, ht, hs, hp, hc, he, if_false, if_true, uid] at hm
              rcases List.mem_cons.mp hm with hm | hm
              · exact ⟨(uid now ctr).1, by simp [hm, uid]⟩
              · exact ih (ctr + 1) m hm
            · exact ih ctr m (by simpa [appendedOf, ht, hs, hp, hc, he] using hm)

/-- Main reducer characterization. -/
theorem runEvents_eq (now : Nat) (aid : String) (haid : AvoidsMintedPrefixes aid)
    (evs : List SSEEvent) :
    ∀ (msgs : List Message) (ctr : Nat),
    (∀ m ∈ msgs, m.id = aid → m.content ≠ none) →
    runEvents now aid evs msgs ctr
      = (msgs.map (textApply (accumText evs) aid) ++ (appendedOf now evs ctr).1,
         (appendedOf now evs ctr).2) := by
  induction evs with
  | nil =>
    intro msgs ctr hsome
    have : msgs.map (textApply (accumText []) aid) = msgs := by
      have : ∀ m ∈ msgs, textApply "" aid m = m := fun m hm => textApply_empty aid m (hsome m hm)
      calc msgs.map (textApply (accumText []) aid) = msgs.map id := List.map_congr_left this
        _ = msgs := List.map_id msgs
    simp [runEvents, appendedOf, this]
  | cons ev evs ih =>
    intro msgs ctr hsome
    by_cases ht : ev.type = some "text"
    · have hstep : handleSSEEvent now ev aid msgs ctr
          = (msgs.map (textApply (ev.content.getD "") aid), ctr) := by
        simp [handleSSEEvent, ht, textApply]
      have hsome₂ : ∀ m ∈ msgs.map (textApply (ev.content.getD "") aid),
          m.id = aid → m.content ≠ none := by
        intro m hm hid
        rcases List.mem_map.mp hm with ⟨m₀, hm₀, rfl⟩
        rw [textApply_id] at hid
        unfold textApply
        simp [hid]
      calc runEvents now aid (ev :: evs) msgs ctr
          = runEvents now aid evs (msgs.map (textApply (ev.content.getD "") aid)) ctr := by
            simp [runEvents, hstep]
        _ = ((msgs.map (textApply (ev.content.getD "") aid)).map (textApply (accumText evs) aid)
              ++ (appendedOf now evs ctr).1, (appendedOf now evs ctr).2) := ih _ ctr hsome₂
        _ = (msgs.map (textApply (accumText (ev :: evs)) aid)
              ++ (appendedOf now (ev :: evs) ctr).1, (appendedOf now (ev :: evs) ctr).2) := by
            have hmapmap : (msgs.map (textApply (ev.content.getD "") aid)).map
                  (textApply (accumText evs) aid)
                = msgs.map (textApply (ev.content.getD "" ++ accumText evs) aid) := by
              rw [List.map_map]
              exact List.map_congr_left fun m hm =>
                textApply_textApply _ _ aid m (hsome m hm)
            rw [hmapmap]
            simp [accumText, appendedOf, ht]
    · have haccum : accumText (ev :: evs) = accumText evs := by simp [accumText, ht]
      by_cases hknown : ev.type = some "status" ∨ ev.type = some "paper_artifact"
        ∨ ev.type = some "suggestion_chips" ∨ ev.type = some "error"
      · obtain ⟨entry, hstep, hentry_id, happ⟩ :
            ∃ entry : Message,
              handleSSEEvent now ev aid msgs ctr = (msgs ++ [entry], ctr + 1)
              ∧ (∃ s : String, entry.id = "status_" ++ s ∨ entry.id = "paper_" ++ s
                  ∨ entry.id = "chips_" ++ s ∨ entry.id = "err_" ++ s)
              ∧ appendedOf now (ev :: evs) ctr
                  = (entry :: (appendedOf now evs (ctr + 1)).1, (appendedOf now evs (ctr + 1)).2) := by
          rcases hknown with hs | hp | hc | he
          · refine ⟨{ id := "status_" ++ (uid now ctr).1, type := "status", content := ev.content },
              ?_, ⟨(uid now ctr).1, Or.inl rfl⟩, ?_⟩
            · simp [handleSSEEvent, ht, hs, uid]
            · simp [appendedOf, ht, hs, uid]
          · have hs : ev.type ≠ some "status" := by simp [hp]
            refine ⟨{ id := "paper_" ++ (uid now ctr).1, type := "paper_artifact", paper := ev.paper },
              ?_, ⟨(uid now ctr).1, Or.inr (Or.inl rfl)⟩, ?_⟩
            · simp [handleSSEEvent, ht, hs, hp, uid]
            · simp [appendedOf, ht, hs, hp, uid]
          · have hs : ev.type ≠ some "status" := by simp [hc]
            have hp : ev.type ≠ some "paper_artifact" := by simp [hc]
            refine ⟨{ id := "chips_" ++ (uid now ctr).1, type := "chips", chips := ev.chips },
              ?_, ⟨(uid now ctr).1, Or.inr (Or.inr (Or.inl rfl))⟩, ?_⟩
            · simp [handleSSEEvent, ht, hs, hp, hc, uid]
            · simp [appendedOf, ht, hs, hp, hc, uid]
          · have hs : ev.type ≠ some "status" := by simp [he]
            have hp : ev.type ≠ some "paper_artifact" := by simp [he]
            have hc : ev.type ≠ some "suggestion_chips" := by simp [he]
            refine ⟨{ id := "err_" ++ (uid now ctr).1, type := "error", content := ev.content },
              ?_, ⟨(uid now ctr).1, Or.inr (Or.inr (Or.inr rfl))⟩, ?_⟩
            · simp [handleSSEEvent, ht, hs, hp, hc, he, uid]
            · simp [appendedOf, ht, hs, hp, hc, he, uid]
        have hentry_ne : entry.id ≠ aid := by
          rcases hentry_id with ⟨s, h1 | h1 | h1 | h1⟩ <;>
            · rw [h1]; intro hh
              rcases haid s with ⟨n1, n2, n3, n4⟩
              first
                | exact n1 hh.symm | exact n2 hh.symm | exact n3 hh.symm | exact n4 hh.symm
        have hsome₂ : ∀ m ∈ msgs ++ [entry], m.id = aid → m.content ≠ none := by
          intro m hm
          rcases List.mem_append.mp hm with hm | hm
          · exact hsome m hm
          · intro hid
            rcases List.mem_singleton.mp hm with rfl
            exact absurd hid hentry_ne
        calc runEvents now aid (ev :: evs) msgs ctr
            = runEvents now aid evs (msgs ++ [entry]) (ctr + 1) := by
              simp [runEvents, hstep]
          _ = ((msgs ++ [entry]).map (textApply (accumText evs) aid)
                ++ (appendedOf now evs (ctr + 1)).1, (appendedOf now evs (ctr + 1)).2) :=
              ih _ _ hsome₂
          _ = (msgs.map (textApply (accumText (ev :: evs)) aid)
                ++ (appendedOf now (ev :: evs) ctr).1, (appendedOf now (ev :: evs) ctr).2) := by
              rw [haccum, happ]
              have : textApply (accumText evs) aid entry = entry := by
                unfold textApply
                simp [hentry_ne]
              simp [this]
      · push_neg at hknown
        obtain ⟨hs, hp, hc, he⟩ := hknown
        have hstep : handleSSEEvent now ev aid msgs ctr = (msgs, ctr) := by
          simp [handleSSEEvent, ht, hs, hp, hc, he]
        have happ : appendedOf now (ev :: evs) ctr = appendedOf now evs ctr := by
          simp [appendedOf, ht, hs, hp, hc, he]
        calc runEvents now aid (ev :: evs) msgs ctr
            = runEvents now aid evs msgs ctr := by simp [runEvents, hstep]
          _ = (msgs.map (textApply (accumText evs) aid) ++ (appendedOf now evs ctr).1,
                (appendedOf now evs ctr).2) := ih msgs ctr hsome
          _ = _ := by rw [haccum, happ]

/-! ## Session Controller characterization

Closed forms for `sendMessage` on a completed stream and on a failed
transport, under the session hygiene assumptions that the guard passes and no
existing entry already carries the id about to be minted for the new
assistant entry. -/

theorem textApply_ne (t aid : String) (m : Message) (h : m.id ≠ aid) :
    textApply t aid m = m := by
  simp [textApply, h]

theorem map_textApply_of_fresh (t aid : String) (msgs : List Message)
    (h : ∀ m ∈ msgs, m.id ≠ aid) : msgs.map (textApply t aid) = msgs := by
  calc msgs.map (textApply t aid) = msgs.map id :=
        List.map_congr_left fun m hm => textApply_ne t aid m (h m hm)
    _ = msgs := List.map_id msgs

theorem find?_aid_of_fresh (aid : String) (msgs : List Message)
    (h : ∀ m ∈ msgs, m.id ≠ aid) :
    (msgs.find? fun m => m.id = aid) = none := by
  apply List.find?_eq_none.mpr
  intro x hx
  simp [h x hx]

theorem sendMessage_ok_eq (st : SessionState) (text : String) (now : Nat) (evs : List SSEEvent)
    (h1 : jsTrim text ≠ "") (h2 : st.streaming = false)
    (hfresh : ∀ m ∈ st.messages, m.id ≠ "ai_" ++ Nat.repr now) :
    sendMessage st text now (.ok evs)
      = { messages := st.messages
            ++ [{ id := "user_" ++ Nat.repr now, type := "user", content := some text },
                { id := "ai_" ++ Nat.repr now, type := "assistant",
                  content := some (accumText evs) }]
            ++ (appendedOf now evs st.counter).1
          streaming := false
          counter := (appendedOf now evs st.counter).2
          rows := st.rows ++ [{ msg_type := "user", content := some text }]
            ++ (if accumText evs = "" then []
                else [{ msg_type := "assistant", content := some (accumText evs) }])
            ++ evs.filterMap trackRow } := by
  have haid : AvoidsMintedPrefixes ("ai_" ++ Nat.repr now) :=
    avoids_of_head "ai_" rfl (by decide) (by decide) (by decide) (by decide) _
  have huser : ("user_" ++ Nat.repr now : String) ≠ "ai_" ++ Nat.repr now :=
    append_ne_of_head_ne "user_" "ai_" rfl rfl (by decide) _ _
  have hsome : ∀ m ∈ st.messages
      ++ [({ id := "user_" ++ Nat.repr now, type := "user", content := some text } : Message),
          { id := "ai_" ++ Nat.repr now, type := "assistant", content := some "" }],
      m.id = "ai_" ++ Nat.repr now → m.content ≠ none := by
    intro m hm
    rcases List.mem_append.mp hm with hm | hm
    · exact fun hid => absurd hid (hfresh m hm)
    · rcases List.mem_cons.mp hm with rfl | hm
      · intro _; simp
      · rcases List.mem_singleton.mp hm with rfl
        intro _; simp
  have hrun := runEvents_eq now ("ai_" ++ Nat.repr now) haid evs
    (st.messages
      ++ [{ id := "user_" ++ Nat.repr now, type := "user", content := some text },
          { id := "ai_" ++ Nat.repr now, type := "assistant", content := some "" }])
    st.counter hsome
  simp only [sendMessage, h1, h2, Bool.false_eq_true, or_self, if_false, or_false]
  rw [hrun]
  have hmap : (st.messages
      ++ [({ id := "user_" ++ Nat.repr now, type := "user", content := some text } : Message),
          { id := "ai_" ++ Nat.repr now, type := "assistant", content := some "" }]).map
        (textApply (accumText evs) ("ai_" ++ Nat.repr now))
      = st.messages
        ++ [{ id := "user_" ++ Nat.repr now, type := "user", content := some text },
            { id := "ai_" ++ Nat.repr now, type := "assistant",
              content := some (accumText evs) }] := by
    rw [List.map_append, map_textApply_of_fresh _ _ _ hfresh]
    simp [textApply, huser]
  rw [hmap]
  have hfind : ((st.messages
        ++ [({ id := "user_" ++ Nat.repr now, type := "user", content := some text } : Message),
            { id := "ai_" ++ Nat.repr now, type := "assistant",
              content := some (accumText evs) }]
        ++ (appendedOf now evs st.counter).1).find? fun m => m.id = "ai_" ++ Nat.repr now)
      = some { id := "ai_" ++ Nat.repr now, type := "assistant",
               content := some (accumText evs) } := by
    rw [List.find?_append, List.find?_append, find?_aid_of_fresh _ _ hfresh]
    rw [List.find?_cons_of_neg _ (by simp [huser]), List.find?_cons_of_pos _ (by simp)]
    simp [Option.or]
  rw [hfind]
  by_cases hacc : accumText evs = ""
  · simp [hacc]
  · simp [hacc]

theorem sendMessage_fail_eq (st : SessionState) (text : String) (now : Nat)
    (prior : List SSEEvent)
    (h1 : jsTrim text ≠ "") (h2 : st.streaming = false)
    (hfresh : ∀ m ∈ st.messages, m.id ≠ "ai_" ++ Nat.repr now) :
    sendMessage st text now (.fail prior)
      = { messages := st.messages
            ++ [{ id := "user_" ++ Nat.repr now, type := "user", content := some text },
                { id := "ai_" ++ Nat.repr now, type := "error",
                  content := some fixedErrorText }]
            ++ (appendedOf now prior st.counter).1
          streaming := false
          counter := (appendedOf now prior st.counter).2
          rows := st.rows ++ [{ msg_type := "user", content := some text }]
            ++ [{ msg_type := "assistant", content := some fixedErrorText }]
            ++ prior.filterMap trackRow } := by
  have haid : AvoidsMintedPrefixes ("ai_" ++ Nat.repr now) :=
    avoids_of_head "ai_" rfl (by decide) (by decide) (by decide) (by decide) _
  have huser : ("user_" ++ Nat.repr now : String) ≠ "ai_" ++ Nat.repr now :=
    append_ne_of_head_ne "user_" "ai_" rfl rfl (by decide) _ _
  have hsome : ∀ m ∈ st.messages
      ++ [({ id := "user_" ++ Nat.repr now, type := "user", content := some text } : Message),
          { id := "ai_" ++ Nat.repr now, type := "assistant", content := some "" }],
      m.id = "ai_" ++ Nat.repr now → m.content ≠ none := by
    intro m hm
    rcases List.mem_append.mp hm with hm | hm
    · exact fun hid => absurd hid (hfresh m hm)
    · rcases List.mem_cons.mp hm with rfl | hm
      · intro _; simp
      · rcases List.mem_singleton.mp hm with rfl
        intro _; simp
  have hrun := runEvents_eq now ("ai_" ++ Nat.repr now) haid prior
    (st.messages
      ++ [{ id := "user_" ++ Nat.repr now, type := "user", content := some text },
          { id := "ai_" ++ Nat.repr now, type := "assistant", content := some "" }])
    st.counter hsome
  simp only [sendMessage, h1, h2, Bool.false_eq_true, or_self, if_false, or_false]
  rw [hrun]
  have hmap : (st.messages
      ++ [({ id := "user_" ++ Nat.repr now, type := "user", content := some text } : Message),
          { id := "ai_" ++ Nat.repr now, type := "assistant", content := some "" }]).map
        (textApply (accumText prior) ("ai_" ++ Nat.repr now))
      = st.messages
        ++ [{ id := "user_" ++ Nat.repr now, type := "user", content := some text },
            { id := "ai_" ++ Nat.repr now, type := "assistant",
              content := some (accumText prior) }] := by
    rw [List.map_append, map_textApply_of_fresh _ _ _ hfresh]
    simp [textApply, huser]
  rw [hmap]
  have hconv : ((st.messages
      ++ [({ id := "user_" ++ Nat.repr now, type := "user", content := some text } : Message),
          { id := "ai_" ++ Nat.repr now, type := "assistant",
            content := some (accumText prior) }]
      ++ (appendedOf now prior st.counter).1).map fun msg =>
        if msg.id = "ai_" ++ Nat.repr now then
          { msg with type := "error", content := some fixedErrorText }
        else msg)
      = st.messages
        ++ [{ id := "user_" ++ Nat.repr now, type := "user", content := some text },
            { id := "ai_" ++ Nat.repr now, type := "error",
              content := some fixedErrorText }]
        ++ (appendedOf now prior st.counter).1 := by
    rw [List.map_append, List.map_append]
    have hst : st.messages.map (fun msg =>
        if msg.id = "ai_" ++ Nat.repr now then
          { msg with type := "error", content := some fixedErrorText }
        else msg) = st.messages := by
      calc st.messages.map _ = st.messages.map id :=
            List.map_congr_left fun m hm => by simp [hfresh m hm]
        _ = st.messages := List.map_id st.messages
    have happ : ((appendedOf now prior st.counter).1).map (fun msg =>
        if msg.id = "ai_" ++ Nat.repr now then
          { msg with type := "error", content := some fixedErrorText }
        else msg) = (appendedOf now prior st.counter).1 := by
      calc ((appendedOf now prior st.counter).1).map _
          = ((appendedOf now prior st.counter).1).map id := by
            apply List.map_congr_left
            intro m hm
            rcases appended_id_has_minted_prefix now prior st.counter m hm with ⟨s, h | h | h | h⟩ <;>
              · rw [h]
                have := haid s
                simp only [id_eq]
                rw [if_neg]
                intro hh
                first
                  | exact this.1 hh.symm
                  | exact this.2.1 hh.symm
                  | exact this.2.2.1 hh.symm
                  | exact this.2.2.2 hh.symm
          _ = (appendedOf now prior st.counter).1 := List.map_id _
    rw [hst, happ]
    simp [huser]
  rw [hconv]
  have hfind : ((st.messages
        ++ [({ id := "user_" ++ Nat.repr now, type := "user", content := some text } : Message),
            { id := "ai_" ++ Nat.repr now, type := "error",
              content := some fixedErrorText }]
        ++ (appendedOf now prior st.counter).1).find? fun m => m.id = "ai_" ++ Nat.repr now)
      = some { id := "ai_" ++ Nat.repr now, type := "error",
               content := some fixedErrorText } := by
    rw [List.find?_append, List.find?_append, find?_aid_of_fresh _ _ hfresh]
    rw [List.find?_cons_of_neg _ (by simp [huser]), List.find?_cons_of_pos _ (by simp)]
    simp [Option.or]
  rw [hfind]
  have : (fixedErrorText = "") = False := by simp [fixedErrorText]
  simp [this]

/-! ## Claim theorems -/

/-- C5 — sendMessage guard: while `streaming` is set, or when the text trims
to the empty string, `sendMessage` is a complete no-op: the returned session
state (conversation, streaming flag, counter, persisted rows) is exactly the
input state, for every transport outcome. -/
theorem sendMessage_guard_noop (st : SessionState) (text : String) (now : Nat) (tr : Transport)
    (h : st.streaming = true ∨ jsTrim text = "") :
    sendMessage st text now tr = st := by
  unfold sendMessage
  rcases h with h | h
  · rw [if_pos (Or.inr h)]
  · rw [if_pos (Or.inl h)]

/-- C5 witness: a call during streaming and a whitespace-only call both leave
a concrete session untouched. -/
theorem sendMessage_guard_noop_witness :
    (({ streaming := true } : SessionState).streaming = true ∨ jsTrim "hello" = "")
    ∧ sendMessage { streaming := true } "hello" 7 (.ok [statusEventW]) = { streaming := true }
    ∧ (sessionW.streaming = true ∨ jsTrim "   " = "")
    ∧ sendMessage sessionW "   " 7 (.ok [statusEventW]) = sessionW :=
  ⟨Or.inl rfl, sendMessage_guard_noop _ _ _ _ (Or.inl rfl),
   Or.inr (by decide), sendMessage_guard_noop _ _ _ _ (Or.inr (by decide))⟩

/-- C9 — Reducer totality on arbitrary events: the handler is a total
function (it is defined by exhaustive comparison of the `type` field and
cannot throw); an event whose `type` is none of the five known tags leaves
the conversation state and counter entirely unchanged, and a `text` event
whose `content` field is absent appends the empty string, which leaves every
entry — in particular the open assistant entry, whose accumulated text is
always present — unchanged. -/
theorem handleSSEEvent_defensive (now : Nat) (aid : String) (msgs : List Message) (ctr : Nat) :
    (∀ ev : SSEEvent, ev.type ≠ some "text" → ev.type ≠ some "status" →
      ev.type ≠ some "paper_artifact" → ev.type ≠ some "suggestion_chips" →
      ev.type ≠ some "error" → handleSSEEvent now ev aid msgs ctr = (msgs, ctr))
    ∧ (∀ chips₀ paper₀, (∀ m ∈ msgs, m.id = aid → m.content ≠ none) →
      handleSSEEvent now { type := some "text", content := none, chips := chips₀, paper := paper₀ }
        aid msgs ctr = (msgs, ctr)) := by
  constructor
  · intro ev hT hS hP hC hE
    simp [handleSSEEvent, hT, hS, hP, hC, hE]
  · intro chips₀ paper₀ hsome
    have hstep : handleSSEEvent now
        { type := some "text", content := none, chips := chips₀, paper := paper₀ } aid msgs ctr
        = (msgs.map (textApply "" aid), ctr) := rfl
    have hmap : msgs.map (textApply "" aid) = msgs := by
      calc msgs.map (textApply "" aid) = msgs.map id :=
            List.map_congr_left fun m hm => textApply_empty aid m (hsome m hm)
        _ = msgs := List.map_id msgs
    rw [hstep, hmap]

/-- C9 witness: a concrete unknown-type event and a concrete content-less
text event leave a concrete conversation unchanged. -/
theorem handleSSEEvent_defensive_witness :
    handleSSEEvent 7 { type := some "done" } "ai_7"
        [{ id := "ai_7", type := "assistant", content := some "" }] 3
      = ([{ id := "ai_7", type := "assistant", content := some "" }], 3)
    ∧ handleSSEEvent 7 { type := some "text" } "ai_7"
        [{ id := "ai_7", type := "assistant", content := some "" }] 3
      = ([{ id := "ai_7", type := "assistant", content := some "" }], 3) :=
  ⟨(handleSSEEvent_defensive 7 "ai_7"
      [{ id := "ai_7", type := "assistant", content := some "" }] 3).1
      { type := some "done" } (by decide) (by decide) (by decide) (by decide) (by decide),
   (handleSSEEvent_defensive 7 "ai_7"
      [{ id := "ai_7", type := "assistant", content := some "" }] 3).2
      none none (by decide)⟩

/-- C4 counterexample: entry id uniqueness fails on the clock-derived ids.
Two `sendMessage` exchanges in the same millisecond (clock reading 5; the
first stream's transport is rejected outright, so the session is idle again
within the tick) mint the id `user_5` twice and the id `ai_5` twice: the live
conversation of a concrete session contains duplicate entry ids, because the
`user`/`assistant` ids are built from `Date.now()` alone, not from the
strictly-increasing counter. -/
theorem entry_id_uniqueness_counterexample :
    ¬ (((sendMessage (sendMessage sessionW "first" 5 (.fail [])) "second" 5
          (.fail [])).messages.map Message.id).Nodup) := by
  decide

/-- C4 amended: ids produced through `uid` (the `status`/`artifact`/
`suggestions`/`error` entries) are pairwise distinct even within one
millisecond, because the strictly-increasing process-local counter is part of
the rendered id; and the `user` and `assistant` ids minted by a single
`sendMessage` call differ from each other (distinct literal prefixes).
Uniqueness of `user`/`assistant` ids across different calls, however, rests
on the clock alone (see the counterexample). -/
theorem entry_id_uniqueness_amended (now : Nat) :
    (∀ i j : Nat, i ≠ j → (uid now i).1 ≠ (uid now j).1)
    ∧ ("user_" ++ Nat.repr now : String) ≠ "ai_" ++ Nat.repr now :=
  ⟨fun _ _ h => uid_injective now h,
   append_ne_of_head_ne "user_" "ai_" rfl rfl (by decide) _ _⟩

/-- C4 amended witness: two `uid` ids minted in the same millisecond from
distinct counter states are distinct. -/
theorem entry_id_uniqueness_amended_witness :
    (0 : Nat) ≠ 1 ∧ (uid 7 0).1 ≠ (uid 7 1).1 :=
  ⟨by decide, (entry_id_uniqueness_amended 7).1 0 1 (by decide)⟩

/-- C8 — Greeting fallback: when the history fetch returns zero rows and the
greeting stream also fails, the session ends with exactly the client-side
default greeting entry and one suggestions entry carrying the 4 fixed chip
strings — one assistant entry, one chips entry, no error entry — and the
streaming flag clear. -/
theorem greeting_fallback (now ctr : Nat) :
    loadHistory (.ok []) .failed now ctr
      = { messages := [{ id := "msg_" ++ Nat.repr now, type := "assistant",
                         content := some defaultGreeting },
                       { id := "chips_0", type := "chips", chips := some defaultChips }]
          streaming := false, historyLoaded := true, counter := ctr }
    ∧ (loadHistory (.ok []) .failed now ctr).messages.countP (fun m => m.type == "assistant") = 1
    ∧ (loadHistory (.ok []) .failed now ctr).messages.countP (fun m => m.type == "chips") = 1
    ∧ (loadHistory (.ok []) .failed now ctr).messages.countP (fun m => m.type == "error") = 0
    ∧ defaultChips.length = 4 := by
  refine ⟨rfl, ?_, ?_, ?_, rfl⟩ <;> rfl

theorem accumText_textEvents (cs : List String) :
    accumText (cs.map fun c => { type := some "text", content := some c }) = concatAll cs := by
  induction cs with
  | nil => rfl
  | cons c cs ih => simp [accumText, concatAll, ih]

theorem appendedOf_textEvents (now : Nat) (cs : List String) :
    ∀ ctr, appendedOf now (cs.map fun c => { type := some "text", content := some c }) ctr
      = ([], ctr) := by
  induction cs with
  | nil => intro ctr; rfl
  | cons c cs ih => intro ctr; simp [appendedOf, ih]

/-- C7 — Reducer scenario: from a conversation ending in the open, empty
assistant entry after the user entry, a stream of one status event
("Searching papers…"), one artifact event (paper `p`), ten text events whose
contents concatenate to "Found a great match.", then stream end, produces
exactly 3 new entries beyond the user entry: the assistant entry (sealed with
text exactly "Found a great match."), one status entry and one artifact
entry. -/
theorem reducer_scenario (now ctr : Nat) (utext : String) (p : Paper) (cs : List String)
    (hlen : cs.length = 10) (hjoin : concatAll cs = "Found a great match.") :
    runEvents now ("ai_" ++ Nat.repr now)
      ({ type := some "status", content := some "Searching papers…" }
        :: { type := some "paper_artifact", paper := some p }
        :: cs.map fun c => { type := some "text", content := some c })
      [{ id := "user_" ++ Nat.repr now, type := "user", content := some utext },
       { id := "ai_" ++ Nat.repr now, type := "assistant", content := some "" }] ctr
    = ([{ id := "user_" ++ Nat.repr now, type := "user", content := some utext },
        { id := "ai_" ++ Nat.repr now, type := "assistant",
          content := some "Found a great match." },
        { id := "status_" ++ (uid now ctr).1, type := "status",
          content := some "Searching papers…" },
        { id := "paper_" ++ (uid now (ctr + 1)).1, type := "paper_artifact",
          paper := some p }],
       ctr + 2) := by
  have haid : AvoidsMintedPrefixes ("ai_" ++ Nat.repr now) :=
    avoids_of_head "ai_" rfl (by decide) (by decide) (by decide) (by decide) _
  have huser : ("user_" ++ Nat.repr now : String) ≠ "ai_" ++ Nat.repr now :=
    append_ne_of_head_ne "user_" "ai_" rfl rfl (by decide) _ _
  have hsome : ∀ m ∈ [({ id := "user_" ++ Nat.repr now, type := "user", content := some utext } : Message), { id := "ai_" ++ Nat.repr now, type := "assistant", content := some "" }], m.id = "ai_" ++ Nat.repr now → m.content ≠ none := by
    intro m hm
    rcases List.mem_cons.mp hm with rfl | hm
    · intro _; simp
    · rcases List.mem_singleton.mp hm with rfl
      intro _; simp
  rw [runEvents_eq now _ haid _ _ ctr hsome]
  have hacc : accumText
      ({ type := some "status", content := some "Searching papers…" }
        :: { type := some "paper_artifact", paper := some p }
        :: cs.map fun c => { type := some "text", content := some c })
      = "Found a great match." := by
    simp [accumText, accumText_textEvents, hjoin, String.empty_append]
  have happ : appendedOf now
      ({ type := some "status", content := some "Searching papers…" }
        :: { type := some "paper_artifact", paper := some p }
        :: cs.map fun c => { type := some "text", content := some c }) ctr
      = ([{ id := "status_" ++ (uid now ctr).1, type := "status",
            content := some "Searching papers…" },
          { id := "paper_" ++ (uid now (ctr + 1)).1, type := "paper_artifact",
            paper := some p }],
         ctr + 2) := by
    simp [appendedOf, appendedOf_textEvents, uid]
  rw [hacc, happ]
  simp [textApply, huser, String.empty_append]

/-- C7 witness: a concrete ten-piece split of "Found a great match." run at
clock 7 from counter 0. -/
theorem reducer_scenario_witness :
    (["Fo", "un", "d ", "a ", "gr", "ea", "t ", "ma", "tc", "h."] : List String).length = 10
    ∧ concatAll ["Fo", "un", "d ", "a ", "gr", "ea", "t ", "ma", "tc", "h."]
        = "Found a great match."
    ∧ runEvents 7 ("ai_" ++ Nat.repr 7)
        ({ type := some "status", content := some "Searching papers…" }
          :: { type := some "paper_artifact", paper := some paperW }
          :: (["Fo", "un", "d ", "a ", "gr", "ea", "t ", "ma", "tc", "h."].map
              fun c => { type := some "text", content := some c }))
        [{ id := "user_" ++ Nat.repr 7, type := "user", content := some "find me a paper" },
         { id := "ai_" ++ Nat.repr 7, type := "assistant", content := some "" }] 0
      = ([{ id := "user_" ++ Nat.repr 7, type := "user", content := some "find me a paper" },
          { id := "ai_" ++ Nat.repr 7, type := "assistant",
            content := some "Found a great match." },
          { id := "status_" ++ (uid 7 0).1, type := "status",
            content := some "Searching papers…" },
          { id := "paper_" ++ (uid 7 1).1, type := "paper_artifact", paper := some paperW }],
         2) :=
  ⟨rfl, by decide,
   reducer_scenario 7 0 "find me a paper" paperW
     ["Fo", "un", "d ", "a ", "gr", "ea", "t ", "ma", "tc", "h."] rfl (by decide)⟩

/-- C6 counterexample: the claim's "the conversation gains exactly one error
entry" fails when the transport throws mid-stream after a soft `error` event
was already decoded: the exchange then adds two error entries (the soft one
appended by the reducer and the converted assistant entry). -/
theorem transport_failure_counterexample :
    (sendMessage sessionW "hi" 5
        (.fail [{ type := some "error", content := some "soft failure" }])).messages.countP
        (fun m => m.type == "error") = 2
    ∧ sessionW.messages.countP (fun m => m.type == "error") = 0 := by
  decide

/-- C6 amended: on a transport failure with no events decoded before the
throw (a connection rejected outright), the open assistant entry is converted
in place to an `error` entry carrying the fixed message "Failed to reach the
backend." — the conversation gains exactly the user entry and that one error
entry, nothing else — and the streaming flag is false immediately after; the
flag is cleared on every exit path, for every transport outcome. -/
theorem transport_failure_handling (st : SessionState) (text : String) (now : Nat)
    (h1 : jsTrim text ≠ "") (h2 : st.streaming = false)
    (hfresh : ∀ m ∈ st.messages, m.id ≠ "ai_" ++ Nat.repr now) :
    (sendMessage st text now (.fail [])).messages
      = st.messages
        ++ [{ id := "user_" ++ Nat.repr now, type := "user", content := some text },
            { id := "ai_" ++ Nat.repr now, type := "error", content := some fixedErrorText }]
    ∧ (sendMessage st text now (.fail [])).messages.countP (fun m => m.type == "error")
        = st.messages.countP (fun m => m.type == "error") + 1
    ∧ ∀ tr : Transport, (sendMessage st text now tr).streaming = false := by
  have hmain := sendMessage_fail_eq st text now [] h1 h2 hfresh
  refine ⟨?_, ?_, ?_⟩
  · rw [hmain]
    simp [appendedOf]
  · rw [hmain]
    simp [appendedOf, List.countP_append]
  · intro tr
    cases tr with
    | ok evs => rw [sendMessage_ok_eq st text now evs h1 h2 hfresh]
    | fail prior => rw [sendMessage_fail_eq st text now prior h1 h2 hfresh]

/-- C6 amended witness: outright rejection at clock 5 on a concrete session:
the conversation gains the user entry and one converted error entry, and
streaming is clear. -/
theorem transport_failure_handling_witness :
    jsTrim "hi" ≠ ""
    ∧ sessionW.streaming = false
    ∧ (sendMessage sessionW "hi" 5 (.fail [])).messages
        = sessionW.messages
          ++ [{ id := "user_" ++ Nat.repr 5, type := "user", content := some "hi" },
              { id := "ai_" ++ Nat.repr 5, type := "error", content := some fixedErrorText }]
    ∧ (sendMessage sessionW "hi" 5 (.fail [])).streaming = false :=
  ⟨by decide, rfl,
   (transport_failure_handling sessionW "hi" 5 (by decide) rfl (by decide)).1,
   (transport_failure_handling sessionW "hi" 5 (by decide) rfl (by decide)).2.2 (.fail [])⟩

theorem trackRow_msg_type (ev : SSEEvent) (r : Row) (h : trackRow ev = some r) :
    r.msg_type = "paper_artifact" ∨ r.msg_type = "chips" := by
  unfold trackRow at h
  by_cases hp : ev.type = some "paper_artifact"
  · rw [if_pos hp] at h
    obtain rfl := Option.some.inj h
    exact Or.inl rfl
  · rw [if_neg hp] at h
    by_cases hc : ev.type = some "suggestion_chips"
    · rw [if_pos hc] at h
      obtain rfl := Option.some.inj h
      exact Or.inr rfl
    · rw [if_neg hc] at h
      simp at h

/-- C10 counterexample: the claim's "no assistant row is written when the
stream ends with the accumulated text still empty" fails for the
transport-failure ending: the failure handler overwrites the open assistant
entry's content with the fixed error message, which is non-empty, so the
write-behind in the cleanup path persists an `assistant` row carrying
"Failed to reach the backend." even though no text event ever arrived. -/
theorem empty_assistant_persisted_on_failure_counterexample :
    accumText [] = ""
    ∧ (sendMessage sessionW "hi" 5 (.fail [])).rows
      = sessionW.rows ++ [{ msg_type := "user", content := some "hi" },
                          { msg_type := "assistant", content := some fixedErrorText }] := by
  exact ⟨rfl, by decide⟩

/-- C10 amended: when a stream completes (no transport throw) with the
accumulated assistant text still empty, no assistant row is written for the
exchange — the rows written are exactly the user row followed by the queued
artifact/chips rows, none of which is an `assistant` row — so the empty
assistant entry visible live is absent from any later rehydration. -/
theorem empty_assistant_not_persisted (st : SessionState) (text : String) (now : Nat)
    (evs : List SSEEvent)
    (h1 : jsTrim text ≠ "") (h2 : st.streaming = false)
    (hfresh : ∀ m ∈ st.messages, m.id ≠ "ai_" ++ Nat.repr now)
    (hempty : accumText evs = "") :
    (sendMessage st text now (.ok evs)).rows
      = st.rows ++ [{ msg_type := "user", content := some text }] ++ evs.filterMap trackRow
    ∧ ∀ r ∈ (sendMessage st text now (.ok evs)).rows.drop st.rows.length,
        r.msg_type ≠ "assistant" := by
  have hmain := sendMessage_ok_eq st text now evs h1 h2 hfresh
  have hrows : (sendMessage st text now (.ok evs)).rows
      = st.rows ++ [{ msg_type := "user", content := some text }] ++ evs.filterMap trackRow := by
    rw [hmain]
    simp [hempty]
  refine ⟨hrows, ?_⟩
  intro r hr
  rw [hrows, List.append_assoc, List.drop_left] at hr
  rcases List.mem_append.mp hr with hr | hr
  · rcases List.mem_singleton.mp hr with rfl
    simp
  · rcases List.mem_filterMap.mp hr with ⟨ev, _, hev⟩
    rcases trackRow_msg_type ev r hev with h | h <;> simp [h]

/-- C10 amended witness: a completed stream that carried only an artifact
event (so the assistant text stayed empty) writes the user row and the
artifact row, and no assistant row. -/
theorem empty_assistant_not_persisted_witness :
    jsTrim "hi" ≠ ""
    ∧ accumText [paperEventW] = ""
    ∧ (sendMessage sessionW "hi" 5 (.ok [paperEventW])).rows
      = sessionW.rows ++ [{ msg_type := "user", content := some "hi" }]
        ++ [paperEventW].filterMap trackRow :=
  ⟨by decide, rfl,
   (empty_assistant_not_persisted sessionW "hi" 5 [paperEventW]
      (by decide) rfl (by decide) rfl).1⟩

/-! ### Persisted-kind projection helpers -/

theorem appended_filter_tracks (now : Nat) (evs : List SSEEvent) :
    ∀ ctr, (((appendedOf now evs ctr).1).filter
        (fun m => m.type == "user" || m.type == "assistant"
          || m.type == "paper_artifact" || m.type == "chips")).map Message.type
      = (evs.filterMap trackRow).map Row.msg_type := by
  induction evs with
  | nil => intro ctr; rfl
  | cons ev evs ih =>
    intro ctr
    by_cases ht : ev.type = some "text"
    · simp [appendedOf, trackRow, ht, ih ctr]
    · by_cases hs : ev.type = some "status"
      · simp [appendedOf, trackRow, ht, hs, ih]
      · by_cases hp : ev.type = some "paper_artifact"
        · simp [appendedOf, trackRow, ht, hs, hp, ih]
        · by_cases hc : ev.type = some "suggestion_chips"
          · simp [appendedOf, trackRow, ht, hs, hp, hc, ih]
          · by_cases he : ev.type = some "error"
            · simp [appendedOf, trackRow, ht, hs, hp, hc, he, ih]
            · simp [appendedOf, trackRow, ht, hs, hp, hc, he, ih ctr]

/-- C3 counterexample: "persist is invoked exactly once per terminal entry —
for user, status, artifact, and suggestions entries immediately when they are
appended" fails for `status`: a completed exchange whose stream carried one
status event leaves one `status` entry in the live conversation but writes no
`status` row at all (the tracking handler only queues artifact and chips
rows, and the immediate call sites only cover the user entry). -/
theorem persistence_contract_counterexample :
    (sendMessage sessionW "hi" 5 (.ok [statusEventW, textEventW])).messages.countP
        (fun m => m.type == "status") = 1
    ∧ (sendMessage sessionW "hi" 5 (.ok [statusEventW, textEventW])).rows.countP
        (fun r => r.msg_type == "status") = 0 := by
  decide

/-- C3 amended: per completed exchange with a non-empty assistant response,
persist is invoked exactly once per persisted-kind terminal entry: the user
row immediately on append, then — only after the stream completes — the
assistant row with the final accumulated text followed by the queued
artifact/suggestions rows in their stream order.  `status` (and soft-error)
entries are never persisted.  Restricted to the persisted kinds, the write
sequence reconstructs the live conversation's append order: a mid-stream
artifact row is written after the assistant row, matching its live position
after the assistant entry. -/
theorem persistence_contract (st : SessionState) (text : String) (now : Nat)
    (evs : List SSEEvent)
    (h1 : jsTrim text ≠ "") (h2 : st.streaming = false)
    (hfresh : ∀ m ∈ st.messages, m.id ≠ "ai_" ++ Nat.repr now)
    (htext : accumText evs ≠ "") :
    (sendMessage st text now (.ok evs)).rows
      = st.rows ++ [{ msg_type := "user", content := some text }]
        ++ [{ msg_type := "assistant", content := some (accumText evs) }]
        ++ evs.filterMap trackRow
    ∧ ((sendMessage st text now (.ok evs)).rows.drop st.rows.length).map Row.msg_type
      = (((sendMessage st text now (.ok evs)).messages.drop st.messages.length).filter
          (fun m => m.type == "user" || m.type == "assistant"
            || m.type == "paper_artifact" || m.type == "chips")).map Message.type := by
  have hmain := sendMessage_ok_eq st text now evs h1 h2 hfresh
  have hrows : (sendMessage st text now (.ok evs)).rows
      = st.rows ++ [{ msg_type := "user", content := some text }]
        ++ [{ msg_type := "assistant", content := some (accumText evs) }]
        ++ evs.filterMap trackRow := by
    rw [hmain]
    simp [htext]
  refine ⟨hrows, ?_⟩
  rw [hrows]
  conv_rhs => rw [hmain]
  simp only [List.append_assoc, List.drop_left]
  simp [List.filter_append, appended_filter_tracks now evs st.counter]

/-- C3 amended witness: a concrete exchange carrying a status event, an
artifact event and one text chunk writes exactly the user, assistant and
artifact rows, in that order, and no status row. -/
theorem persistence_contract_witness :
    jsTrim "hi" ≠ ""
    ∧ accumText [statusEventW, paperEventW, textEventW] ≠ ""
    ∧ (sendMessage sessionW "hi" 5 (.ok [statusEventW, paperEventW, textEventW])).rows
      = sessionW.rows ++ [{ msg_type := "user", content := some "hi" }]
        ++ [{ msg_type := "assistant",
              content := some (accumText [statusEventW, paperEventW, textEventW]) }]
        ++ [statusEventW, paperEventW, textEventW].filterMap trackRow :=
  ⟨by decide, by decide,
   (persistence_contract sessionW "hi" 5 [statusEventW, paperEventW, textEventW]
      (by decide) rfl (by decide) (by decide)).1⟩

theorem obs_restoreRow (i : Nat) (r : Row) : obs (restoreRow i r) = restoreObs r := rfl

theorem zip_restore_obs (dbIds : List Nat) (rows : List Row) (h : dbIds.length = rows.length) :
    ((dbIds.zip rows).map fun pr => restoreRow pr.1 pr.2).map obs = rows.map restoreObs := by
  induction dbIds generalizing rows with
  | nil =>
    cases rows with
    | nil => rfl
    | cons r rs => simp at h
  | cons i is ih =>
    cases rows with
    | nil => simp at h
    | cons r rs =>
      simp only [List.zip_cons_cons, List.map_cons, List.length_cons] at h ⊢
      rw [obs_restoreRow, ih rs (by omega)]

theorem appended_obs_tracks (now : Nat) (evs : List SSEEvent)
    (hterm : ∀ ev ∈ evs, ev.type ≠ some "status" ∧ ev.type ≠ some "error") :
    ∀ ctr, ((appendedOf now evs ctr).1).map obs = (evs.filterMap trackRow).map restoreObs := by
  induction evs with
  | nil => intro ctr; rfl
  | cons ev evs ih =>
    have hterm_ev := hterm ev (List.mem_cons_self ev evs)
    have hterm₂ : ∀ e ∈ evs, e.type ≠ some "status" ∧ e.type ≠ some "error" :=
      fun e he => hterm e (List.mem_cons_of_mem _ he)
    intro ctr
    by_cases ht : ev.type = some "text"
    · simp [appendedOf, trackRow, ht, ih hterm₂]
    · by_cases hp : ev.type = some "paper_artifact"
      · simp [appendedOf, trackRow, ht, hterm_ev.1, hp, ih hterm₂, obs, restoreObs, restoreRow]
      · by_cases hc : ev.type = some "suggestion_chips"
        · simp [appendedOf, trackRow, ht, hterm_ev.1, hp, hc, ih hterm₂, obs, restoreObs,
            restoreRow]
        · simp [appendedOf, trackRow, ht, hterm_ev.1, hterm_ev.2, hp, hc, ih hterm₂]

/-- C1 — Rehydration/streaming equivalence: take a session whose conversation
so far is fully mirrored by its persisted rows, and run one exchange whose
stream completes with a non-empty assistant text and carries no `status` and
no soft-`error` events — i.e. a session all of whose terminal entries are
persisted.  Rehydrating at the next session start from the persisted rows
(each under its database id) yields a conversation with the same kinds in the
same order, with the same text, suggestions and artifact payloads, as the
live conversation at stream end. -/
theorem rehydration_streaming_equivalence (st : SessionState) (text : String) (now : Nat)
    (evs : List SSEEvent) (dbIds : List Nat) (greet : GreetingFetch) (now₂ ctr₂ : Nat)
    (h1 : jsTrim text ≠ "") (h2 : st.streaming = false)
    (hfresh : ∀ m ∈ st.messages, m.id ≠ "ai_" ++ Nat.repr now)
    (hinv : st.rows.map restoreObs = st.messages.map obs)
    (hterm : ∀ ev ∈ evs, ev.type ≠ some "status" ∧ ev.type ≠ some "error")
    (htext : accumText evs ≠ "")
    (hlen : dbIds.length = (sendMessage st text now (.ok evs)).rows.length) :
    (loadHistory (.ok (dbIds.zip (sendMessage st text now (.ok evs)).rows))
        greet now₂ ctr₂).messages.map obs
      = (sendMessage st text now (.ok evs)).messages.map obs := by
  have hmain := sendMessage_ok_eq st text now evs h1 h2 hfresh
  have hpos : 0 < (dbIds.zip (sendMessage st text now (.ok evs)).rows).length := by
    rw [List.length_zip, hlen, Nat.min_self, hmain]
    simp [htext]
  simp only [loadHistory]
  rw [if_pos hpos]
  show ((dbIds.zip (sendMessage st text now (.ok evs)).rows).map
      fun pr => restoreRow pr.1 pr.2).map obs = _
  rw [zip_restore_obs _ _ hlen, hmain]
  simp only [List.map_append, hinv]
  rw [if_neg htext]
  simp [obs, restoreObs, restoreRow, appended_obs_tracks now evs hterm st.counter]

/-- C1 witness: a concrete session (one already-persisted user row) runs one
exchange carrying an artifact event and a text chunk; rehydrating its four
persisted rows under database ids 10-13 reproduces the live conversation's
kinds and payloads in order. -/
theorem rehydration_streaming_equivalence_witness :
    jsTrim "hi" ≠ ""
    ∧ sessionW.rows.map restoreObs = sessionW.messages.map obs
    ∧ accumText [paperEventW, textEventW] ≠ ""
    ∧ ([10, 11, 12, 13] : List Nat).length
        = (sendMessage sessionW "hi" 5 (.ok [paperEventW, textEventW])).rows.length
    ∧ (loadHistory
          (.ok (([10, 11, 12, 13] : List Nat).zip
            (sendMessage sessionW "hi" 5 (.ok [paperEventW, textEventW])).rows))
          .failed 9 0).messages.map obs
      = (sendMessage sessionW "hi" 5 (.ok [paperEventW, textEventW])).messages.map obs :=
  ⟨by decide, by decide, by decide, by decide,
   rehydration_streaming_equivalence sessionW "hi" 5 [paperEventW, textEventW]
     [10, 11, 12, 13] .failed 9 0 (by decide) rfl (by decide) (by decide) (by decide)
     (by decide) (by decide)⟩

end Saraswati
